import Mathlib

/-!
Verification development for the chain reconciliation / indexing engine of the
discovery provider (src/discovery-provider/src/tasks/index.py) and its sibling
aggregate-maintenance job (src/discovery-provider/src/tasks/index_aggregate_user.py).

The relational state is embedded shallowly: tables are lists of rows, a scoped
session transaction is a pure function from state to state (an Except value on
the paths that raise), and the redis side effects that matter to the claims are
recorded as an explicit event trace.  Machine integers are Nat/Int (Python ints
are unbounded, so no modular wrap is needed).  SQLAlchemy object identity of
entity-version rows is represented by an explicit row id field, standing for the
primary key of the underlying row.
-/

/-! ## Data model (src/discovery-provider/src/models/models.py and index.py constants) -/

def default_padded_start_hash : String :=
  "0x0000000000000000000000000000000000000000000000000000000000000000"

def default_config_start_hash : String := "0x0"

/-- Block row: blockhash (primary key), number (nullable), parenthash, is_current. -/
structure BlockRow where
  blockhash : String
  number : Option Int
  parenthash : String
  is_current : Bool
deriving Repr, DecidableEq

/-- Entity-version row, generic over the business key type: User keyed by
user_id, Track by track_id, Playlist by playlist_id, Follow by
(follower_user_id, followee_user_id), Repost by (user_id, repost_item_id,
repost_type), Save by (user_id, save_item_id, save_type).  The rid field stands
for the row identity (primary key) used by session.delete and attribute update. -/
structure VRow (kappa : Type) where
  rid : Nat
  key : kappa
  blockhash : String
  blocknumber : Int
  is_current : Bool
deriving Repr, DecidableEq

/-- Transaction of a chain block; only the hash is consumed by the core
(classification by recipient address only routes receipts to the external
appliers, which are abstracted below). -/
structure Tx where
  hash : String
deriving Repr, DecidableEq

/-- Block as returned by the chain client (web3.eth.getBlock). -/
structure ChainBlock where
  hash : String
  parentHash : String
  number : Int
  transactions : List Tx
deriving Repr, DecidableEq

/-- The persisted relational state touched by index.py: the Block table and the
six entity-version tables. -/
structure DB where
  blocks : List BlockRow
  users : List (VRow Nat)
  tracks : List (VRow Nat)
  playlists : List (VRow Nat)
  follows : List (VRow (Nat × Nat))
  reposts : List (VRow (Nat × Nat × String))
  saves : List (VRow (Nat × Nat × String))
deriving Repr, DecidableEq

/-- Externally visible redis effects of index_blocks, in program order:
session.commit, cache invalidation (remove_cached_*_ids), and publication of the
most recently indexed block number and hash. -/
inductive Event where
  | commit : Event
  | cacheInvalidateUsers : List Nat → Event
  | cacheInvalidateTracks : List Nat → Event
  | cacheInvalidatePlaylists : List Nat → Event
  | publishBlockNumber : Int → Event
  | publishBlockHash : String → Event
deriving Repr, DecidableEq

/-! ## Helpers shared by the components -/

/-- Number of Block rows with is_current = True (count of the filter_by query). -/
def countCurrent (bl : List BlockRow) : Nat :=
  (bl.filter (fun r => r.is_current)).length

/-- Flip the first current Block row to not current: the effect of
query.filter_by(is_current=True).first() followed by .is_current = False
(index.py lines 170-171). -/
def setFirstCurrentFalse : List BlockRow → List BlockRow
  | [] => []
  | r :: rs =>
    if r.is_current then { r with is_current := false } :: rs
    else r :: setFirstCurrentFalse rs

/-- Parent hash after the special case for the default start block value:
a padded zero hash is replaced by the configured 0x0 value
(index.py lines 325-327). -/
def parentAdj (b : BlockRow) : String :=
  if b.parenthash == default_padded_start_hash then default_config_start_hash
  else b.parenthash

/-- SQL comparison blocknumber < revert_block_number with a nullable right side:
a NULL block number satisfies no comparison. -/
def bnLtOpt (bn : Int) : Option Int → Bool
  | some n => bn < n
  | none => false

/-- Result of order_by(blocknumber.desc()).first(): the row with the greatest
blocknumber among the candidates.  The tie-break order of the underlying SQL is
unspecified; this model keeps the earliest listed row among ties. -/
def firstByBnDesc {kappa : Type} : List (VRow kappa) → Option (VRow kappa)
  | [] => none
  | r :: rs =>
    match firstByBnDesc rs with
    | none => some r
    | some m => if m.blocknumber > r.blocknumber then some m else some r

/-! ## Revert Engine (index.py revert_blocks, lines 298-463) -/

/-- Revert the entity-version rows of one table that are stamped with the
reverted block hash.  The entries are snapshotted first (query(...).all()), then
for each entry the predecessor query runs against the evolving table (pending
deletes of earlier entries are flushed), the found row has is_current set to
True, and the entry is deleted.  useBnFilter is true for playlists, tracks and
users, whose predecessor query carries the extra blocknumber < revert block
number filter (index.py lines 415, 429, 446); the save, repost and follow
queries (lines 363-370, 380-387, 396-401) have no such filter. -/
def revertEntries {kappa : Type} [DecidableEq kappa] (useBnFilter : Bool)
    (n : Option Int) (revertHash : String) (table : List (VRow kappa)) :
    List (VRow kappa) :=
  let entries := table.filter (fun r => r.blockhash == revertHash)
  entries.foldl
    (fun (tbl : List (VRow kappa)) (e : VRow kappa) =>
      let candidates := tbl.filter
        (fun r => r.key == e.key && (!useBnFilter || bnLtOpt r.blocknumber n))
      let tbl2 :=
        match firstByBnDesc candidates with
        | some prev =>
          tbl.map (fun (r : VRow kappa) =>
            if r.rid == prev.rid then { r with is_current := true } else r)
        | none => tbl
      tbl2.filter (fun r => r.rid != e.rid))
    table

/-- Row effect of query(Block).filter(blockhash == h).update(is_current False). -/
def setNotCurIf (h : String) (r : BlockRow) : BlockRow :=
  if r.blockhash == h then { r with is_current := false } else r

/-- Row effect of query(Block).filter(blockhash == h).update(is_current True). -/
def setCurIf (h : String) (r : BlockRow) : BlockRow :=
  if r.blockhash == h then { r with is_current := true } else r

/-- Block-table effect of reverting one block (index.py lines 329-335 and 458):
set rows with the reverted hash to not current, set rows with the (adjusted)
parent hash to current, and delete the reverted hash row. -/
def stepBlocks (bl : List BlockRow) (b : BlockRow) : List BlockRow :=
  ((bl.map (setNotCurIf b.blockhash)).map (setCurIf (parentAdj b))).filter
    (fun r => r.blockhash != b.blockhash)

/-- Revert one block of the revert list: block-table flips, then the six entity
tables in reverse dependency order (saves, reposts, follows, playlists, tracks,
users), then deletion of the Block row (index.py lines 318-458). -/
def revertOneBlock (db : DB) (rb : BlockRow) : DB :=
  { blocks := stepBlocks db.blocks rb
    saves := revertEntries false rb.number rb.blockhash db.saves
    reposts := revertEntries false rb.number rb.blockhash db.reposts
    follows := revertEntries false rb.number rb.blockhash db.follows
    playlists := revertEntries true rb.number rb.blockhash db.playlists
    tracks := revertEntries true rb.number rb.blockhash db.tracks
    users := revertEntries true rb.number rb.blockhash db.users }

/-- revert_blocks (index.py lines 298-463): an empty revert list returns
immediately; a list longer than 500 raises before opening the session; otherwise
all blocks of the list are reverted inside one scoped session, in list order. -/
def revert_blocks (revert_blocks_list : List BlockRow) (db : DB) : Except String DB :=
  if revert_blocks_list.length == 0 then Except.ok db
  else if revert_blocks_list.length > 500 then
    Except.error ("Unexpected revert, >0 blocks")
  else Except.ok (revert_blocks_list.foldl revertOneBlock db)

/-! ## Block Indexer (index.py fetch_tx_receipts and index_blocks, lines 119-295) -/

/-- Python dict insertion keyed by transaction hash: overwrite an existing key,
otherwise append. -/
def dictInsert {rho : Type} (d : List (String × rho)) (k : String) (v : rho) :
    List (String × rho) :=
  if d.any (fun q => q.1 == k) then
    d.map (fun q => if q.1 == k then (k, v) else q)
  else d ++ [(k, v)]

/-- Accumulate the successfully fetched receipts into the dict; a failed fetch
is logged and skipped.  The oracle stands for web3.eth.getTransactionReceipt,
returning none when the fetch raises.  Completion order of the worker pool does
not affect the resulting keys or values; the model uses submission order. -/
def fetchFold {rho : Type} (oracle : String → Option rho) (txs : List Tx)
    (acc : List (String × rho)) : List (String × rho) :=
  txs.foldl
    (fun d tx =>
      match oracle tx.hash with
      | some rc => dictInsert d tx.hash rc
      | none => d)
    acc

/-- fetch_tx_receipts (index.py lines 119-135): fetch every receipt, then raise
if the number of processed keys differs from the number of submitted
transactions. -/
def fetch_tx_receipts {rho : Type} (oracle : String → Option rho)
    (block_transactions : List Tx) : Except String (List (String × rho)) :=
  let d := fetchFold oracle block_transactions []
  if d.length != block_transactions.length then
    Except.error ("fetch_tx_receipts did not receive all submitted receipts")
  else Except.ok d

/-- Fresh row identity for an inserted entity-version row. -/
def freshRid {kappa : Type} (table : List (VRow kappa)) : Nat :=
  table.foldl (fun m r => max m (r.rid + 1)) 0

/-- Modelled from the spec: the per-entity appliers (user_state_update,
track_state_update, social_feature_state_update, playlist_state_update,
user_library_state_update, user_replica_set_state_update live in
src/tasks/users.py, tracks.py, social_features.py, playlists.py,
user_library.py, user_replica_set.py, which are not under src/).  Per the spec,
an applier mutates entity-version rows inside the open transaction and reports
affected ids; a newly applied version row becomes the current version for its
business id, superseding the previously current row, and rows are append-only
per version. -/
def applyVersions {kappa : Type} [DecidableEq kappa] (bh : String) (bn : Int)
    (keys : List kappa) (table : List (VRow kappa)) : List (VRow kappa) :=
  keys.foldl
    (fun tbl k =>
      let tbl2 := tbl.map
        (fun r => if r.key == k && r.is_current then { r with is_current := false } else r)
      tbl2 ++ [{ rid := freshRid tbl2, key := k, blockhash := bh, blocknumber := bn,
                 is_current := true }])
    table

/-- Modelled from the spec: the row-level mutations that the six appliers derive
from the classified receipts of one block (the decoders are out of scope); each list
holds the business keys of the new entity versions the block carries. -/
structure BlockEffects where
  userKeys : List Nat
  trackKeys : List Nat
  playlistKeys : List Nat
  followKeys : List (Nat × Nat)
  repostKeys : List (Nat × Nat × String)
  saveKeys : List (Nat × Nat × String)
deriving Repr, DecidableEq

/-- The redis events emitted after session.commit for one block, in program
order (index.py lines 280-292): cache invalidations guarded by the state-changed
flags and non-empty id lists, then the most-recently-indexed block number and
hash. -/
def postCommitEvents (eff : BlockEffects) (b : ChainBlock) : List Event :=
  (if eff.userKeys.length > 0 && !eff.userKeys.isEmpty then
      [Event.cacheInvalidateUsers eff.userKeys] else []) ++
  (if (eff.userKeys.length > 0 || eff.trackKeys.length > 0) && !eff.trackKeys.isEmpty then
      [Event.cacheInvalidateTracks eff.trackKeys] else []) ++
  (if eff.playlistKeys.length > 0 && !eff.playlistKeys.isEmpty then
      [Event.cacheInvalidatePlaylists eff.playlistKeys] else []) ++
  [Event.publishBlockNumber b.number, Event.publishBlockHash b.hash]

/-- One iteration of the index_blocks loop (index.py lines 153-292): a distinct
scoped session asserts a single current Block row, flips it, inserts the new
current Block row, fetches all receipts (raising aborts the transaction, so
nothing of the block is committed), applies the six appliers, commits, and only
then emits the cache invalidations and the checkpoint publication.  The
transaction-scoped writes are visible only at commit, so the embedding performs
the receipt-failure check before constructing the committed state. -/
def indexOneBlock {rho : Type} (oracle : String → Option rho)
    (effects : String → BlockEffects) (db : DB) (b : ChainBlock) :
    Except String DB × List Event :=
  if countCurrent db.blocks != 1 then
    (Except.error ("Expected single row marked as current"), [])
  else
    match fetch_tx_receipts oracle b.transactions with
    | Except.error e => (Except.error e, [])
    | Except.ok _ =>
      let eff := effects b.hash
      let db2 : DB :=
        { blocks := setFirstCurrentFalse db.blocks ++
            [{ blockhash := b.hash, number := some b.number, parenthash := b.parentHash,
               is_current := true }]
          users := applyVersions b.hash b.number eff.userKeys db.users
          tracks := applyVersions b.hash b.number eff.trackKeys db.tracks
          playlists := applyVersions b.hash b.number eff.playlistKeys db.playlists
          follows := applyVersions b.hash b.number eff.followKeys db.follows
          reposts := applyVersions b.hash b.number eff.repostKeys db.reposts
          saves := applyVersions b.hash b.number eff.saveKeys db.saves }
      (Except.ok db2, Event.commit :: postCommitEvents eff b)

/-- Order in which index_blocks applies the discovered blocks: the loop walks
block_order_range = range(len(blocks_list) - 1, -1, -1) (index.py line 142), so
the tip-first discovery list is applied oldest block first. -/
def applicationOrder {alpha : Type} (blocks_list : List alpha) : List alpha :=
  blocks_list.reverse

/-- index_blocks (index.py lines 137-295): apply the blocks sequentially in
application order, each in its own transaction; an exception aborts the loop. -/
def index_blocks {rho : Type} (oracle : String → Option rho)
    (effects : String → BlockEffects) (db : DB) (blocks_list : List ChainBlock) :
    Except String DB × List Event :=
  (applicationOrder blocks_list).foldl
    (fun acc b =>
      match acc with
      | (Except.error e, evs) => (Except.error e, evs)
      | (Except.ok d, evs) =>
        let r := indexOneBlock oracle effects d b
        (r.1, evs ++ r.2))
    (Except.ok db, [])

/-- initialize_blocks_table_if_necessary (index.py lines 37-74): with no current
row the whole table must be empty (else the assert raises) and the configured
start block is inserted as current, its number nulled for block 0 or the 0x0
start hash; otherwise the assert demands exactly one current row and the state
is unchanged (only redis keys are refreshed). -/
def init_blocks_table (target_blockhash : String) (target_block_number : Int)
    (db : DB) : Except String DB :=
  if countCurrent db.blocks == 0 then
    if db.blocks.length != 0 then
      Except.error ("Corrupted DB State - Expect single row marked as current")
    else
      Except.ok { db with blocks :=
        [{ blockhash := target_blockhash
           number :=
             if target_block_number == 0 || target_blockhash == default_config_start_hash
             then none else some target_block_number
           parenthash := target_blockhash
           is_current := true }] }
  else if countCurrent db.blocks != 1 then
    Except.error ("Expected SINGLE row marked as current")
  else Except.ok db

/-! ## Reconciliation Engine (index.py update_task, lines 514-614) -/

/-- Outcome of the backward tip-walk: the tip-first index list and the
intersection hash. -/
structure WalkResult where
  index_list : List ChainBlock
  intersect : String
deriving Repr, DecidableEq

/-- Backward tip-walk of update_task (index.py lines 520-559).  The exit query
at lines 524-528 is written as three conditions joined with the Python and
operator; applied to SQLAlchemy expressions that operator returns its first
operand, so the executed filter is Block.blockhash == current_hash alone: the
parenthash and is_current conditions are dead.  Every block visited before the
exit is appended to the index list.  If the parent hash is the padded zero
sentinel the walk stops with the configured 0x0 intersection; otherwise the
parent block is always fetched from the chain, and if the parent hash was found
in the Block table the walk stops with that fetched hash as intersection.  Fuel
bounds the unbounded source loop; none models a cycle that never exits or a
chain-client failure. -/
def tipWalk (getBlock : String → Option ChainBlock) (blocks : List BlockRow) :
    Nat → ChainBlock → List ChainBlock → Option WalkResult
  | 0, _, _ => none
  | Nat.succ fuel, latest_block, acc =>
    let current_hash := latest_block.hash
    let parent_hash := latest_block.parentHash
    if blocks.any (fun r => r.blockhash == current_hash) then
      some { index_list := acc, intersect := current_hash }
    else
      let acc2 := acc ++ [latest_block]
      let parentInDb := blocks.any (fun r => r.blockhash == parent_hash)
      if parent_hash == default_padded_start_hash then
        some { index_list := acc2, intersect := default_config_start_hash }
      else
        match getBlock parent_hash with
        | none => none
        | some pb =>
          if parentInDb then some { index_list := acc2, intersect := pb.hash }
          else tipWalk getBlock blocks fuel pb acc2

/-- Backward walk from the locally current Block toward the intersection
(index.py lines 588-604): while the traversed hash differs from the
intersection hash, append the block to the revert list and step to the first
Block row whose hash equals its parent hash, exiting early if none exists. -/
def revertWalk (blocks : List BlockRow) :
    Nat → BlockRow → String → List BlockRow → Option (List BlockRow)
  | 0, _, _, _ => none
  | Nat.succ fuel, traverse_block, intersect, acc =>
    if traverse_block.blockhash == intersect then some acc
    else
      let acc2 := acc ++ [traverse_block]
      match blocks.find? (fun r => r.blockhash == traverse_block.parenthash) with
      | none => some acc2
      | some p => revertWalk blocks fuel p intersect acc2

/-- The reconciliation phase of update_task (index.py lines 514-607): run the
tip-walk, assert a single current Block row, and walk from it to the
intersection collecting the revert list.  Returns (index list tip-first,
revert list most-recent-first, intersection hash). -/
def reconcile (getBlock : String → Option ChainBlock) (fuel : Nat)
    (latest_block : ChainBlock) (blocks : List BlockRow) :
    Option (List ChainBlock × List BlockRow × String) :=
  match tipWalk getBlock blocks fuel latest_block [] with
  | none => none
  | some w =>
    match blocks.filter (fun r => r.is_current) with
    | [db_current_block] =>
      match revertWalk blocks fuel db_current_block w.intersect [] with
      | none => none
      | some rl => some (w.index_list, rl, w.intersect)
    | _ => none

/-! ## Aggregate Maintenance (src/discovery-provider/src/tasks/index_aggregate_user.py) -/

/-- User row columns consumed by the aggregate query. -/
structure AUserRow where
  user_id : Nat
  blocknumber : Int
  is_current : Bool
deriving Repr, DecidableEq

/-- Track row columns consumed by the aggregate query. -/
structure ATrackRow where
  owner_id : Nat
  blocknumber : Int
  is_current : Bool
  is_delete : Bool
  is_unlisted : Bool
  stem_of : Option String
deriving Repr, DecidableEq

/-- Playlist row columns consumed by the aggregate query. -/
structure APlaylistRow where
  playlist_owner_id : Nat
  blocknumber : Int
  is_current : Bool
  is_delete : Bool
  is_private : Bool
  is_album : Bool
deriving Repr, DecidableEq

/-- Follow row columns consumed by the aggregate query. -/
structure AFollowRow where
  follower_user_id : Nat
  followee_user_id : Nat
  blocknumber : Int
  is_current : Bool
  is_delete : Bool
deriving Repr, DecidableEq

/-- Repost row columns consumed by the aggregate query. -/
structure ARepostRow where
  user_id : Nat
  blocknumber : Int
  is_current : Bool
  is_delete : Bool
deriving Repr, DecidableEq

/-- Save row columns consumed by the aggregate query. -/
structure ASaveRow where
  user_id : Nat
  blocknumber : Int
  is_current : Bool
  is_delete : Bool
  save_type : String
deriving Repr, DecidableEq

/-- Aggregate user row: fully derived per-user counters. -/
structure AggregateUserRow where
  user_id : Nat
  track_count : Nat
  playlist_count : Nat
  album_count : Nat
  follower_count : Nat
  following_count : Nat
  repost_count : Nat
  track_save_count : Nat
deriving Repr, DecidableEq

/-- The relational state touched by the aggregate-user job. -/
structure AggState where
  users : List AUserRow
  tracks : List ATrackRow
  playlists : List APlaylistRow
  follows : List AFollowRow
  reposts : List ARepostRow
  saves : List ASaveRow
  blocks : List BlockRow
  aggregate_user : List AggregateUserRow
  checkpoints : List (String × Int)
deriving Repr, DecidableEq

def AGGREGATE_USER : String := "aggregate_user"

/-- Modelled from the spec: get_last_indexed_checkpoint
(src/utils/update_indexing_checkpoints.py is not under src/).  The Checkpoint
store is a durable job-name to last-processed-blocknumber mapping with a single
row per job; reading returns the stored value when the row exists. -/
def getLastIndexedCheckpoint (s : AggState) (tablename : String) : Option Int :=
  (s.checkpoints.find? (fun q => q.1 == tablename)).map (fun q => q.2)

/-- Modelled from the spec: save_indexed_checkpoint
(src/utils/update_indexing_checkpoints.py is not under src/).  The single row
for the job is created on the first successful run and overwritten afterwards. -/
def saveIndexedCheckpoint (s : AggState) (tablename : String) (n : Int) : AggState :=
  if s.checkpoints.any (fun q => q.1 == tablename) then
    { s with checkpoints :=
        s.checkpoints.map (fun q => if q.1 == tablename then (tablename, n) else q) }
  else { s with checkpoints := s.checkpoints ++ [(tablename, n)] }

/-- get_latest_blocknumber (index_aggregate_user.py lines 340-347): the number
column of the first Block row with is_current = True, none when no such row
exists (the number itself may be NULL). -/
def getLatestBlocknumber (s : AggState) : Option Int :=
  match s.blocks.find? (fun r => r.is_current) with
  | none => none
  | some r => r.number

/-- Python truthiness of an int-or-None value: None and 0 are falsy. -/
def truthyOptInt : Option Int → Bool
  | none => false
  | some n => !(n == 0)

/-- changed_users CTE of UPDATE_AGGREGATE_USER_QUERY: ids whose current-state
row in any source table carries a blocknumber above the checkpoint lower bound.
The UNION ALL branches are concatenated; the list is consumed only through
membership (the IN filters), so the per-branch GROUP BY deduplication is
immaterial. -/
def changedUserIds (lb : Int) (s : AggState) : List Nat :=
  ((s.users.filter (fun u => u.is_current && u.blocknumber > lb)).map
      (fun u => u.user_id)) ++
  ((s.tracks.filter (fun t => t.is_current && t.blocknumber > lb)).map
      (fun t => t.owner_id)) ++
  ((s.playlists.filter (fun p => !p.is_album && p.is_current && p.blocknumber > lb)).map
      (fun p => p.playlist_owner_id)) ++
  ((s.playlists.filter (fun p => p.is_album && p.is_current && p.blocknumber > lb)).map
      (fun p => p.playlist_owner_id)) ++
  ((s.follows.filter (fun f => f.is_current && f.blocknumber > lb)).map
      (fun f => f.followee_user_id)) ++
  ((s.follows.filter (fun f => f.is_current && f.blocknumber > lb)).map
      (fun f => f.follower_user_id)) ++
  ((s.reposts.filter (fun r => r.is_current && r.blocknumber > lb)).map
      (fun r => r.user_id)) ++
  ((s.saves.filter (fun v => v.is_current && v.save_type == "track" && v.blocknumber > lb)).map
      (fun v => v.user_id))

/-- The recomputed counter row for one changed user: full counts of current,
non-deleted, visibility-eligible rows per kind, per the LEFT OUTER JOIN
subqueries of UPDATE_AGGREGATE_USER_QUERY. -/
def countsRow (s : AggState) (changed : List Nat) (u : Nat) : AggregateUserRow :=
  { user_id := u
    track_count := (s.tracks.filter (fun t =>
      t.is_current && !t.is_delete && !t.is_unlisted && t.stem_of.isNone &&
      changed.contains t.owner_id && t.owner_id == u)).length
    playlist_count := (s.playlists.filter (fun p =>
      !p.is_album && p.is_current && !p.is_delete && !p.is_private &&
      changed.contains p.playlist_owner_id && p.playlist_owner_id == u)).length
    album_count := (s.playlists.filter (fun p =>
      p.is_album && p.is_current && !p.is_delete && !p.is_private &&
      changed.contains p.playlist_owner_id && p.playlist_owner_id == u)).length
    follower_count := (s.follows.filter (fun f =>
      f.is_current && !f.is_delete &&
      changed.contains f.followee_user_id && f.followee_user_id == u)).length
    following_count := (s.follows.filter (fun f =>
      f.is_current && !f.is_delete &&
      changed.contains f.follower_user_id && f.follower_user_id == u)).length
    repost_count := (s.reposts.filter (fun r =>
      r.is_current && !r.is_delete &&
      changed.contains r.user_id && r.user_id == u)).length
    track_save_count := (s.saves.filter (fun v =>
      v.is_current && v.save_type == "track" && !v.is_delete &&
      changed.contains v.user_id && v.user_id == u)).length }

/-- INSERT ... ON CONFLICT (user_id) DO UPDATE: overwrite every count field of
an existing row, insert otherwise. -/
def upsertAggRow (table : List AggregateUserRow) (row : AggregateUserRow) :
    List AggregateUserRow :=
  if table.any (fun r => r.user_id == row.user_id) then
    table.map (fun r => if r.user_id == row.user_id then row else r)
  else table ++ [row]

/-- UPDATE_AGGREGATE_USER_QUERY (index_aggregate_user.py lines 25-337) with the
checkpoint lower bound bound to lb: compute the changed ids, recompute full
counts for the DISTINCT current user ids among them, and upsert the rows. -/
def runAggregateQuery (lb : Int) (s : AggState) : AggState :=
  let changed := changedUserIds lb s
  let targets :=
    ((s.users.filter (fun u => u.is_current && changed.contains u.user_id)).map
      (fun u => u.user_id)).dedup
  let rows := targets.map (countsRow s changed)
  { s with aggregate_user := rows.foldl upsertAggRow s.aggregate_user }

/-- The body of _update_aggregate_user (index_aggregate_user.py lines 350-381):
a falsy checkpoint (absent row or stored 0) truncates the aggregate table and
recomputes with lower bound 0; a checkpoint equal to the latest current
blocknumber is a no-op; otherwise the query runs incrementally from the
checkpoint; the checkpoint is saved only when the latest blocknumber is truthy. -/
def update_aggregate_user (s : AggState) : AggState :=
  let chk := getLastIndexedCheckpoint s AGGREGATE_USER
  let latest := getLatestBlocknumber s
  if !(truthyOptInt chk) then
    let s1 : AggState := { s with aggregate_user := [] }
    let s2 := runAggregateQuery 0 s1
    match latest with
    | some n => if truthyOptInt (some n) then saveIndexedCheckpoint s2 AGGREGATE_USER n else s2
    | none => s2
  else if latest == chk then s
  else
    let s2 := runAggregateQuery (chk.getD 0) s
    match latest with
    | some n => if truthyOptInt (some n) then saveIndexedCheckpoint s2 AGGREGATE_USER n else s2
    | none => s2

/-! ## Concrete scenarios -/

/-- Empty database. -/
def dbEmpty : DB := { blocks := [], users := [], tracks := [], playlists := [],
                      follows := [], reposts := [], saves := [] }

/-- Block effects carrying no entity versions. -/
def effNone : BlockEffects :=
  { userKeys := [], trackKeys := [], playlistKeys := [], followKeys := [],
    repostKeys := [], saveKeys := [] }

/-- Scenario B persisted rows: H0 (not current) and its child H1 (current). -/
def scnB_h0 : BlockRow := { blockhash := "h0", number := some 100, parenthash := "0xgen", is_current := false }

def scnB_h1 : BlockRow := { blockhash := "h1", number := some 101, parenthash := "h0", is_current := true }

/-- Scenario B canonical chain blocks H0, H1 prime, H2 prime. -/
def scnB_cH0 : ChainBlock := { hash := "h0", parentHash := "0xgen", number := 100, transactions := [] }

def scnB_cH1p : ChainBlock := { hash := "h1p", parentHash := "h0", number := 101, transactions := [] }

def scnB_cH2p : ChainBlock := { hash := "h2p", parentHash := "h1p", number := 102, transactions := [] }

/-- Scenario B chain client: resolves H1 prime and H0 by hash. -/
def scnB_getBlock : String → Option ChainBlock := fun h =>
  if h == "h1p" then some scnB_cH1p
  else if h == "h0" then some scnB_cH0
  else none

/-- C1: for the reorg scenario with local current H1 (child of H0) and canonical
chain H0 to H1 prime to H2 prime, the reconciliation walk of update_task finds
intersection H0, revert list [H1] (most recent first), and an index list whose
application order in index_blocks is H1 prime then H2 prime. -/
theorem c1_scenarioB_reconciliation :
    reconcile scnB_getBlock 10 scnB_cH2p [scnB_h0, scnB_h1] =
      some ([scnB_cH2p, scnB_cH1p], [scnB_h1], "h0") ∧
    applicationOrder [scnB_cH2p, scnB_cH1p] = [scnB_cH1p, scnB_cH2p] :=
  ⟨rfl, rfl⟩

/-- Blocks table for the C6 counter-scenario: H0 current, H1 persisted but NOT
current (its hash equal to the chain tip hash). -/
def scnC6_blocks : List BlockRow :=
  [{ blockhash := "h0", number := some 100, parenthash := "0xgen", is_current := true },
   { blockhash := "h1", number := some 101, parenthash := "h0", is_current := false }]

def scnC6_tip : ChainBlock := { hash := "h1", parentHash := "h0", number := 101, transactions := [] }

/-- C6 counterexample: the backward tip-walk of update_task exits and declares
the visited hash the intersection as soon as ANY persisted Block row has that
blockhash; a persisted but non-current row satisfies the exit condition, because
the Python and operator reduces the three-part SQLAlchemy filter at index.py
lines 524-528 to its first condition.  Here the only row with hash h1 has
is_current = False, yet the walk exits at once with intersection h1 and an empty
index list. -/
theorem c6_noncurrent_row_satisfies_exit :
    tipWalk (fun _ => none) scnC6_blocks 10 scnC6_tip [] =
      some { index_list := [], intersect := "h1" } ∧
    scnC6_blocks.any (fun r => r.blockhash == "h1" && r.is_current) = false ∧
    scnC6_blocks.any (fun r => r.blockhash == "h1") = true :=
  ⟨rfl, rfl, rfl⟩

/-- C5: a revert list longer than 500 raises before any mutation (the returned
state is an error and the input state is untouched), and an empty revert list
returns the state unchanged. -/
theorem c5_revert_bounds (l : List BlockRow) (db : DB) :
    (l.length > 500 → revert_blocks l db = Except.error ("Unexpected revert, >0 blocks")) ∧
    (l.length = 0 → revert_blocks l db = Except.ok db) := by
  constructor
  · intro h
    have h0 : l.length ≠ 0 := by omega
    simp only [revert_blocks]
    rw [if_neg (by simpa using h0), if_pos (by simpa using h)]
  · intro h
    simp only [revert_blocks]
    rw [if_pos (by simpa using h)]

def c5block : BlockRow := { blockhash := "x", number := none, parenthash := "y", is_current := false }

/-- Witness for C5 at a concrete 501-element list and the empty list. -/
theorem c5_revert_bounds_witness :
    revert_blocks (List.replicate 501 c5block) dbEmpty =
      Except.error ("Unexpected revert, >0 blocks") ∧
    revert_blocks [] dbEmpty = Except.ok dbEmpty :=
  ⟨(c5_revert_bounds (List.replicate 501 c5block) dbEmpty).1
      (by rw [List.length_replicate]; omega),
   (c5_revert_bounds [] dbEmpty).2 rfl⟩

/-- Business key of the save version used in the round-trip scenario. -/
def kSave : Nat × Nat × String := (1, 10, "track")

/-- Save version current before B1 is indexed. -/
def c3save0 : VRow (Nat × Nat × String) :=
  { rid := 0, key := kSave, blockhash := "p", blocknumber := 1, is_current := true }

/-- Round-trip start state: Block P current, one current save version stamped P. -/
def c3db0 : DB :=
  { blocks := [{ blockhash := "p", number := some 1, parenthash := "pp", is_current := true }],
    users := [], tracks := [], playlists := [], follows := [], reposts := [],
    saves := [c3save0] }

/-- Modelled from the spec: block B1 carries one save mutation (a new version of
the save identified by kSave); B2 and B3 carry none. -/
def c3eff : String → BlockEffects := fun h =>
  if h == "b1" then { effNone with saveKeys := [kSave] } else effNone

def c3cb1 : ChainBlock := { hash := "b1", parentHash := "p", number := 2, transactions := [] }

def c3cb2 : ChainBlock := { hash := "b2", parentHash := "b1", number := 3, transactions := [] }

def c3cb3 : ChainBlock := { hash := "b3", parentHash := "b2", number := 4, transactions := [] }

def c3orc : String → Option Unit := fun _ => none

/-- State after indexing B1, B2, B3 from c3db0 (computed by index_blocks; see
the first conjunct of the theorem below). -/
def c3db3 : DB :=
  { blocks := [{ blockhash := "p", number := some 1, parenthash := "pp", is_current := false },
               { blockhash := "b1", number := some 2, parenthash := "p", is_current := false },
               { blockhash := "b2", number := some 3, parenthash := "b1", is_current := false },
               { blockhash := "b3", number := some 4, parenthash := "b2", is_current := true }],
    users := [], tracks := [], playlists := [], follows := [], reposts := [],
    saves := [{ rid := 0, key := kSave, blockhash := "p", blocknumber := 1, is_current := false },
              { rid := 1, key := kSave, blockhash := "b1", blocknumber := 2, is_current := true }] }

def c3rb1 : BlockRow := { blockhash := "b1", number := some 2, parenthash := "p", is_current := false }

def c3rb2 : BlockRow := { blockhash := "b2", number := some 3, parenthash := "b1", is_current := false }

def c3rb3 : BlockRow := { blockhash := "b3", number := some 4, parenthash := "b2", is_current := true }

/-- State after reverting [B3, B2, B1] from c3db3: the Block table is back to P
current, but the save version that was current before B1 (rid 0) is left
non-current, because the predecessor query for saves carries no
blocknumber < revert block number filter and selects the reverted row itself. -/
def c3db4 : DB :=
  { blocks := [{ blockhash := "p", number := some 1, parenthash := "pp", is_current := true }],
    users := [], tracks := [], playlists := [], follows := [], reposts := [],
    saves := [{ rid := 0, key := kSave, blockhash := "p", blocknumber := 1, is_current := false }] }

/-- C3 counterexample: indexing the linked chain P to B1 to B2 to B3 (B1 carries
a new version of an existing save) and then reverting [B3, B2, B1] does NOT
restore the entity-version rows that were current before B1: the save row
current in c3db0 ends non-current, even though the Block table is again at P.
The claim fails for the save, repost and follow kinds, whose predecessor query
(index.py lines 363-370, 380-387, 396-401) lacks the blocknumber filter that the
playlist, track and user queries have. -/
theorem c3_roundtrip_not_restored :
    (index_blocks c3orc c3eff c3db0 [c3cb3, c3cb2, c3cb1]).1 = Except.ok c3db3 ∧
    revert_blocks [c3rb3, c3rb2, c3rb1] c3db3 = Except.ok c3db4 ∧
    c3db0.saves.filter (fun r => r.is_current) = [c3save0] ∧
    c3db4.saves.filter (fun r => r.is_current) = [] ∧
    c3db4.blocks = [{ blockhash := "p", number := some 1, parenthash := "pp", is_current := true }] :=
  ⟨rfl, rfl, rfl, rfl, rfl⟩

/-- Business key of the repost version in the single-block revert scenario. -/
def kRep : Nat × Nat × String := (2, 20, "track")

/-- Single-block revert state: block B1 (number 2) current with its parent P;
one repost version and one track version stamped B1, each with a predecessor
version stamped P at blocknumber 1. -/
def c4db : DB :=
  { blocks := [{ blockhash := "p", number := some 1, parenthash := "pp", is_current := false },
               { blockhash := "b1", number := some 2, parenthash := "p", is_current := true }],
    users := [], playlists := [], follows := [], saves := [],
    tracks := [{ rid := 0, key := 5, blockhash := "p", blocknumber := 1, is_current := false },
               { rid := 1, key := 5, blockhash := "b1", blocknumber := 2, is_current := true }],
    reposts := [{ rid := 0, key := kRep, blockhash := "p", blocknumber := 1, is_current := false },
                { rid := 1, key := kRep, blockhash := "b1", blocknumber := 2, is_current := true }] }

def c4rb : BlockRow := { blockhash := "b1", number := some 2, parenthash := "p", is_current := true }

/-- C4 counterexample: when reverting block B1 (number 2), the track table
behaves as claimed (the predecessor at blocknumber 1 below 2 becomes current),
but the repost table does not: the predecessor query for reposts has no
blocknumber < 2 filter, selects the reverted row itself (greatest blocknumber),
marks it current and then deletes it, so the true predecessor stays
non-current and no repost row is current afterwards.  The same holds for saves
and follows. -/
theorem c4_social_predecessor_not_restored :
    (revertOneBlock c4db c4rb).tracks =
      [{ rid := 0, key := 5, blockhash := "p", blocknumber := 1, is_current := true }] ∧
    (revertOneBlock c4db c4rb).reposts =
      [{ rid := 0, key := kRep, blockhash := "p", blocknumber := 1, is_current := false }] ∧
    c4db.reposts.filter (fun r => bnLtOpt r.blocknumber (some 2) && r.key == kRep) =
      [{ rid := 0, key := kRep, blockhash := "p", blocknumber := 1, is_current := false }] :=
  ⟨rfl, rfl, rfl⟩

/-! ## C2: the single-current-Block invariant -/

/-- Blockhashes are pairwise distinct (blockhash is the primary key). -/
def hashesNodup (bl : List BlockRow) : Prop :=
  (bl.map BlockRow.blockhash).Nodup

/-- The rows currently marked is_current are exactly the rows carrying hash h,
and such a row exists. -/
def currentExactlyAt (bl : List BlockRow) (h : String) : Prop :=
  (∀ r ∈ bl, r.is_current = true ↔ r.blockhash = h) ∧
    h ∈ bl.map BlockRow.blockhash

/-- The revert list is a parent-linked chain ending at a block whose (adjusted)
parent hash is p. -/
def chainLinks : List BlockRow → String → Prop
  | [], _ => True
  | [b], p => parentAdj b = p
  | b :: b2 :: rest, p => parentAdj b = b2.blockhash ∧ chainLinks (b2 :: rest) p

/-- Hash of the first block of the revert list, or p when the list is empty. -/
def headHash : List BlockRow → String → String
  | [], p => p
  | b :: _, _ => b.blockhash

/-- Well-formedness of a revert batch: distinct persisted hashes, the revert
list is the parent-linked chain starting at the current tip, every listed hash
is persisted, the listed hashes are distinct, and the landing hash p is
persisted and not itself reverted. -/
def RevertPre (db : DB) (l : List BlockRow) (p : String) : Prop :=
  hashesNodup db.blocks ∧
  chainLinks l p ∧
  (∀ b ∈ l, b.blockhash ∈ db.blocks.map BlockRow.blockhash) ∧
  (l.map BlockRow.blockhash).Nodup ∧
  p ∈ db.blocks.map BlockRow.blockhash ∧
  p ∉ l.map BlockRow.blockhash ∧
  currentExactlyAt db.blocks (headHash l p)

theorem map_blockhash_update (f : BlockRow → BlockRow)
    (hf : ∀ r, (f r).blockhash = r.blockhash) (bl : List BlockRow) :
    (bl.map f).map BlockRow.blockhash = bl.map BlockRow.blockhash := by
  rw [List.map_map]
  exact List.map_congr_left (fun r _ => hf r)

theorem map_blockhash_filter (p : String → Bool) (bl : List BlockRow) :
    ((bl.filter (fun r => p r.blockhash)).map BlockRow.blockhash) =
      (bl.map BlockRow.blockhash).filter p := by
  induction bl with
  | nil => rfl
  | cons r rs ih =>
    by_cases hp : p r.blockhash
    · simp [List.filter_cons, hp, ih]
    · simp [List.filter_cons, hp, ih]

theorem setNotCurIf_blockhash (h : String) (r : BlockRow) :
    (setNotCurIf h r).blockhash = r.blockhash := by
  unfold setNotCurIf; split <;> rfl

theorem setCurIf_blockhash (h : String) (r : BlockRow) :
    (setCurIf h r).blockhash = r.blockhash := by
  unfold setCurIf; split <;> rfl

theorem blockhash_stepBlocks (bl : List BlockRow) (b : BlockRow) :
    (stepBlocks bl b).map BlockRow.blockhash =
      (bl.map BlockRow.blockhash).filter (fun h => h != b.blockhash) := by
  unfold stepBlocks
  rw [map_blockhash_filter (fun h => h != b.blockhash)]
  rw [map_blockhash_update _ (setCurIf_blockhash _)]
  rw [map_blockhash_update _ (setNotCurIf_blockhash _)]

theorem stepBlocks_current (bl : List BlockRow) (b : BlockRow) (next : String)
    (hpa : parentAdj b = next) (_hne : next ≠ b.blockhash)
    (hcur : ∀ r ∈ bl, r.is_current = true ↔ r.blockhash = b.blockhash) :
    ∀ r ∈ stepBlocks bl b, r.is_current = true ↔ r.blockhash = next := by
  intro r hr
  unfold stepBlocks at hr
  rw [List.mem_filter] at hr
  obtain ⟨hmem, hq⟩ := hr
  rw [List.mem_map] at hmem
  obtain ⟨r1, hr1, hr1eq⟩ := hmem
  rw [List.mem_map] at hr1
  obtain ⟨r0, hr0, hr0eq⟩ := hr1
  have hrh : r.blockhash = r0.blockhash := by
    rw [← hr1eq, ← hr0eq, setCurIf_blockhash, setNotCurIf_blockhash]
  have hne0 : r0.blockhash ≠ b.blockhash := by
    intro hcontra
    rw [hrh, hcontra] at hq
    simp at hq
  have h1 : setNotCurIf b.blockhash r0 = r0 := by
    unfold setNotCurIf
    rw [if_neg (by simpa using hne0)]
  rw [h1] at hr0eq
  by_cases h2 : r0.blockhash = next
  · have : r = { r0 with is_current := true } := by
      rw [← hr1eq, ← hr0eq]
      unfold setCurIf
      rw [hpa, if_pos (by simpa using h2)]
    rw [this]
    simpa using h2
  · have : r = r0 := by
      rw [← hr1eq, ← hr0eq]
      unfold setCurIf
      rw [hpa, if_neg (by simpa using h2)]
    rw [this]
    rw [hcur r0 hr0]
    simp [hne0, h2]

theorem chainLinks_cons (b : BlockRow) (rest : List BlockRow) (p : String)
    (h : chainLinks (b :: rest) p) :
    parentAdj b = headHash rest p ∧ chainLinks rest p := by
  cases rest with
  | nil => exact ⟨h, trivial⟩
  | cons b2 r2 => exact ⟨h.1, h.2⟩

theorem revertFoldBlocks (l : List BlockRow) :
    ∀ (bl : List BlockRow) (p : String),
    (bl.map BlockRow.blockhash).Nodup →
    chainLinks l p →
    (∀ x ∈ l, x.blockhash ∈ bl.map BlockRow.blockhash) →
    (l.map BlockRow.blockhash).Nodup →
    p ∈ bl.map BlockRow.blockhash →
    p ∉ l.map BlockRow.blockhash →
    (∀ r ∈ bl, r.is_current = true ↔ r.blockhash = headHash l p) →
    (∀ r ∈ l.foldl stepBlocks bl, r.is_current = true ↔ r.blockhash = p) ∧
      p ∈ (l.foldl stepBlocks bl).map BlockRow.blockhash ∧
      ((l.foldl stepBlocks bl).map BlockRow.blockhash).Nodup := by
  induction l with
  | nil =>
    intro bl p hnd _ _ _ hp _ hcur
    exact ⟨hcur, hp, hnd⟩
  | cons b rest ih =>
    intro bl p hnd hcl hmem hlnd hp hpl hcur
    obtain ⟨hpa, hclrest⟩ := chainLinks_cons b rest p hcl
    have hbnotrest : b.blockhash ∉ rest.map BlockRow.blockhash := by
      have := hlnd
      rw [List.map_cons, List.nodup_cons] at this
      exact this.1
    have hlndrest : (rest.map BlockRow.blockhash).Nodup := by
      have := hlnd
      rw [List.map_cons, List.nodup_cons] at this
      exact this.2
    have hne : headHash rest p ≠ b.blockhash := by
      cases rest with
      | nil =>
        intro hcontra
        exact hpl (by simp [headHash] at hcontra; simp [hcontra])
      | cons b2 r2 =>
        intro hcontra
        apply hbnotrest
        simp only [headHash] at hcontra
        rw [← hcontra]
        simp
    have hstepcur : ∀ r ∈ stepBlocks bl b, r.is_current = true ↔ r.blockhash = headHash rest p :=
      stepBlocks_current bl b (headHash rest p) hpa hne
        (by simpa [headHash] using hcur)
    have hsteph : (stepBlocks bl b).map BlockRow.blockhash =
        (bl.map BlockRow.blockhash).filter (fun h => h != b.blockhash) :=
      blockhash_stepBlocks bl b
    have hndstep : ((stepBlocks bl b).map BlockRow.blockhash).Nodup := by
      rw [hsteph]; exact hnd.filter _
    have hmemstep : ∀ x ∈ rest, x.blockhash ∈ (stepBlocks bl b).map BlockRow.blockhash := by
      intro x hx
      rw [hsteph, List.mem_filter]
      refine ⟨hmem x (List.mem_cons_of_mem _ hx), ?_⟩
      have : x.blockhash ≠ b.blockhash := by
        intro hcontra
        exact hbnotrest (by rw [← hcontra] at *; exact List.mem_map_of_mem _ hx)
      simpa using this
    have hpstep : p ∈ (stepBlocks bl b).map BlockRow.blockhash := by
      rw [hsteph, List.mem_filter]
      refine ⟨hp, ?_⟩
      have : p ≠ b.blockhash := by
        intro hcontra
        exact hpl (by simp [hcontra])
      simpa using this
    have hplrest : p ∉ rest.map BlockRow.blockhash := by
      intro hcontra
      exact hpl (List.mem_cons_of_mem _ hcontra)
    simpa using ih (stepBlocks bl b) p hndstep hclrest hmemstep hlndrest hpstep hplrest hstepcur

theorem countCurrent_eq_one (bl : List BlockRow) (h : String)
    (hnd : (bl.map BlockRow.blockhash).Nodup)
    (hmem : h ∈ bl.map BlockRow.blockhash)
    (hcur : ∀ r ∈ bl, r.is_current = true ↔ r.blockhash = h) :
    countCurrent bl = 1 := by
  induction bl with
  | nil => simp at hmem
  | cons r rs ih =>
    rw [List.map_cons, List.nodup_cons] at hnd
    by_cases hc : r.is_current = true
    · have hrh : r.blockhash = h := (hcur r (List.mem_cons_self r rs)).1 hc
      have hrest : rs.filter (fun x => x.is_current) = [] := by
        rw [List.filter_eq_nil_iff]
        intro x hx
        intro hxc
        have hxh : x.blockhash = h := (hcur x (List.mem_cons_of_mem r hx)).1 (by simpa using hxc)
        exact hnd.1 (by rw [hrh, ← hxh]; exact List.mem_map_of_mem _ hx)
      unfold countCurrent
      rw [List.filter_cons_of_pos (by simpa using hc), hrest]
      rfl
    · have hrh : r.blockhash ≠ h := fun hcontra => hc ((hcur r (List.mem_cons_self r rs)).2 hcontra)
      have hmem2 : h ∈ rs.map BlockRow.blockhash := by
        rw [List.map_cons] at hmem
        rcases List.mem_cons.mp hmem with h1 | h1
        · exact absurd h1.symm hrh
        · exact h1
      unfold countCurrent
      rw [List.filter_cons_of_neg (by simpa using hc)]
      exact ih hnd.2 hmem2 (fun x hx => hcur x (List.mem_cons_of_mem r hx))

theorem revert_foldl_blocks (l : List BlockRow) :
    ∀ db : DB, (l.foldl revertOneBlock db).blocks = l.foldl stepBlocks db.blocks := by
  induction l with
  | nil => intro db; rfl
  | cons b rest ih =>
    intro db
    simp only [List.foldl_cons]
    rw [ih (revertOneBlock db b)]
    rfl

theorem countCurrent_append (l1 l2 : List BlockRow) :
    countCurrent (l1 ++ l2) = countCurrent l1 + countCurrent l2 := by
  simp [countCurrent, List.filter_append]

theorem countCurrent_setFirstCurrentFalse (l : List BlockRow) :
    countCurrent (setFirstCurrentFalse l) = countCurrent l - 1 := by
  induction l with
  | nil => rfl
  | cons r rs ih =>
    by_cases hc : r.is_current = true
    · unfold setFirstCurrentFalse
      rw [if_pos hc]
      unfold countCurrent
      rw [List.filter_cons_of_neg (by simp), List.filter_cons_of_pos (by simpa using hc)]
      simp
    · unfold setFirstCurrentFalse
      rw [if_neg hc]
      unfold countCurrent
      rw [List.filter_cons_of_neg (by simpa using hc), List.filter_cons_of_neg (by simpa using hc)]
      exact ih

theorem init_blocks_table_single (tb : String) (tn : Int) (db db2 : DB)
    (h : init_blocks_table tb tn db = Except.ok db2) : countCurrent db2.blocks = 1 := by
  unfold init_blocks_table at h
  split at h
  · split at h
    · simp at h
    · have hdb : db2 = { db with blocks :=
          [{ blockhash := tb
             number := if tn == 0 || tb == default_config_start_hash then none else some tn
             parenthash := tb
             is_current := true }] } := by
        cases h
        rfl
      subst hdb
      simp [countCurrent]
  · split at h
    · simp at h
    · rename_i hc1 hc2
      have hdb : db2 = db := by cases h; rfl
      subst hdb
      simpa using hc2

theorem indexOneBlock_single (rho : Type) (oracle : String → Option rho)
    (effects : String → BlockEffects) (db : DB) (b : ChainBlock) (db2 : DB)
    (evs : List Event)
    (h : indexOneBlock oracle effects db b = (Except.ok db2, evs)) :
    countCurrent db2.blocks = 1 := by
  unfold indexOneBlock at h
  split at h
  · simp at h
  · rename_i hc
    have hc1 : countCurrent db.blocks = 1 := by simpa using hc
    split at h
    · simp at h
    · have hdb : db2.blocks = setFirstCurrentFalse db.blocks ++
          [{ blockhash := b.hash, number := some b.number, parenthash := b.parentHash,
             is_current := true }] := by
        rw [Prod.mk.injEq] at h
        cases (Except.ok.inj h.1)
        rfl
      rw [hdb, countCurrent_append, countCurrent_setFirstCurrentFalse, hc1]
      rfl

/-- C2: every committed unit of work keeps exactly one current Block row.  The
empty-or-singular paths of initialize_blocks_table_if_necessary and every
successful per-block transaction of index_blocks yield exactly one current row
unconditionally (their asserts reject other states); a successful revert batch
yields exactly one current row under the RevertPre well-formedness of the batch
(a parent-linked chain of persisted, pairwise distinct hashes starting at the
current tip and landing on a persisted, unreverted parent). -/
theorem c2_exactly_one_current :
    (∀ (tb : String) (tn : Int) (db db2 : DB),
        init_blocks_table tb tn db = Except.ok db2 → countCurrent db2.blocks = 1) ∧
    (∀ (rho : Type) (oracle : String → Option rho) (effects : String → BlockEffects)
        (db : DB) (b : ChainBlock) (db2 : DB) (evs : List Event),
        indexOneBlock oracle effects db b = (Except.ok db2, evs) →
        countCurrent db2.blocks = 1) ∧
    (∀ (l : List BlockRow) (db : DB) (p : String) (db2 : DB),
        RevertPre db l p → revert_blocks l db = Except.ok db2 →
        countCurrent db2.blocks = 1) := by
  refine ⟨init_blocks_table_single, indexOneBlock_single, ?_⟩
  intro l db p db2 hpre hok
  obtain ⟨hnd, hcl, hmem, hlnd, hp, hpl, hcur⟩ := hpre
  unfold revert_blocks at hok
  split at hok
  · rename_i hzero
    have hl : l = [] := List.length_eq_zero.mp (by simpa using hzero)
    subst hl
    cases hok
    exact countCurrent_eq_one db.blocks p hnd hp hcur.1
  · split at hok
    · simp at hok
    · have hdb : db2 = l.foldl revertOneBlock db := by cases hok; rfl
      subst hdb
      rw [revert_foldl_blocks]
      obtain ⟨hone, hpm, hndf⟩ :=
        revertFoldBlocks l db.blocks p hnd hcl hmem hlnd hp hpl hcur.1
      exact countCurrent_eq_one _ p hndf hpm hone

/-- Result state of the concrete initialize path used in the C2 witness. -/
def c2w_init_db2 : DB :=
  { dbEmpty with blocks :=
      [{ blockhash := "0x0", number := none, parenthash := "0x0", is_current := true }] }

/-- Result state of the concrete indexOneBlock call used in the C2 witness. -/
def c2w_index_db2 : DB :=
  { blocks := [{ blockhash := "p", number := some 1, parenthash := "pp", is_current := false },
               { blockhash := "b1", number := some 2, parenthash := "p", is_current := true }],
    users := [], tracks := [], playlists := [], follows := [], reposts := [],
    saves := [{ rid := 0, key := kSave, blockhash := "p", blocknumber := 1, is_current := false },
              { rid := 1, key := kSave, blockhash := "b1", blocknumber := 2, is_current := true }] }

/-- Revert-batch input of the C2 witness: current tip b1 whose parent p stays. -/
def c2w_rb : BlockRow := { blockhash := "b1", number := some 2, parenthash := "p", is_current := true }

def c2w_revert_db : DB :=
  { dbEmpty with blocks :=
      [{ blockhash := "b1", number := some 2, parenthash := "p", is_current := true },
       { blockhash := "p", number := some 1, parenthash := "pp", is_current := false }] }

def c2w_revert_db2 : DB :=
  { dbEmpty with blocks :=
      [{ blockhash := "p", number := some 1, parenthash := "pp", is_current := true }] }

/-- Witness for C2 at concrete states for all three units of work. -/
theorem c2_exactly_one_current_witness :
    countCurrent c2w_init_db2.blocks = 1 ∧
    countCurrent c2w_index_db2.blocks = 1 ∧
    countCurrent c2w_revert_db2.blocks = 1 :=
  ⟨c2_exactly_one_current.1 ("0x0") 0 dbEmpty c2w_init_db2 rfl,
   c2_exactly_one_current.2.1 Unit c3orc c3eff c3db0 c3cb1 c2w_index_db2
     [Event.commit, Event.publishBlockNumber 2, Event.publishBlockHash ("b1")] rfl,
   c2_exactly_one_current.2.2 [c2w_rb] c2w_revert_db ("p") c2w_revert_db2
     ⟨by unfold hashesNodup; decide, (by decide : parentAdj c2w_rb = "p"), by decide,
      by decide, by decide, by decide, by unfold currentExactlyAt; decide⟩ rfl⟩

/-! ## C7: receipt fetching -/

theorem dictInsert_keys_nodup {rho : Type} (d : List (String × rho)) (k : String) (v : rho)
    (hnd : (d.map Prod.fst).Nodup) : ((dictInsert d k v).map Prod.fst).Nodup := by
  unfold dictInsert
  split
  · have : ((d.map (fun q => if q.1 == k then (k, v) else q)).map Prod.fst) = d.map Prod.fst := by
      rw [List.map_map]
      refine List.map_congr_left ?_
      intro q _
      by_cases hq : q.1 = k
      · simp [hq]
      · simp [hq]
    rw [this]
    exact hnd
  · rename_i hany
    have hknot : k ∉ d.map Prod.fst := by
      intro hk
      rcases List.mem_map.mp hk with ⟨q, hqmem, hqeq⟩
      exact hany (List.any_eq_true.mpr ⟨q, hqmem, by simpa using hqeq⟩)
    rw [List.map_append]
    simp only [List.map_cons, List.map_nil]
    rw [List.nodup_append]
    exact ⟨hnd, List.nodup_singleton k, by simpa using hknot⟩

theorem dictInsert_keys_subset {rho : Type} (d : List (String × rho)) (k : String) (v : rho) :
    ((dictInsert d k v).map Prod.fst) ⊆ (d.map Prod.fst) ++ [k] := by
  unfold dictInsert
  split
  · have : ((d.map (fun q => if q.1 == k then (k, v) else q)).map Prod.fst) = d.map Prod.fst := by
      rw [List.map_map]
      refine List.map_congr_left ?_
      intro q _
      by_cases hq : q.1 = k
      · simp [hq]
      · simp [hq]
    rw [this]
    exact List.subset_append_left _ _
  · rw [List.map_append]
    simp

theorem fetchFold_keys_nodup {rho : Type} (oracle : String → Option rho) :
    ∀ (txs : List Tx) (acc : List (String × rho)),
    (acc.map Prod.fst).Nodup → ((fetchFold oracle txs acc).map Prod.fst).Nodup := by
  intro txs
  induction txs with
  | nil => intro acc h; exact h
  | cons tx rest ih =>
    intro acc h
    unfold fetchFold
    simp only [List.foldl_cons]
    cases horc : oracle tx.hash with
    | none =>
      exact ih acc h
    | some rc =>
      exact ih (dictInsert acc tx.hash rc) (dictInsert_keys_nodup acc tx.hash rc h)

theorem fetchFold_keys_subset {rho : Type} (oracle : String → Option rho) :
    ∀ (txs : List Tx) (acc : List (String × rho)),
    ((fetchFold oracle txs acc).map Prod.fst) ⊆ acc.map Prod.fst ++ txs.map Tx.hash := by
  intro txs
  induction txs with
  | nil => intro acc; simp [fetchFold]
  | cons tx rest ih =>
    intro acc
    unfold fetchFold
    simp only [List.foldl_cons]
    cases horc : oracle tx.hash with
    | none =>
      intro x hx
      have := ih acc hx
      rw [List.mem_append] at this
      rcases this with h1 | h1
      · exact List.mem_append.mpr (Or.inl h1)
      · exact List.mem_append.mpr (Or.inr (List.mem_cons_of_mem _ h1))
    | some rc =>
      intro x hx
      have := ih (dictInsert acc tx.hash rc) hx
      rw [List.mem_append] at this
      rcases this with h1 | h1
      · have := dictInsert_keys_subset acc tx.hash rc h1
        rw [List.mem_append] at this
        rcases this with h2 | h2
        · exact List.mem_append.mpr (Or.inl h2)
        · exact List.mem_append.mpr (Or.inr (by simpa using Or.inl (by simpa using h2)))
      · exact List.mem_append.mpr (Or.inr (List.mem_cons_of_mem _ h1))

theorem fetch_tx_receipts_covers {rho : Type} (oracle : String → Option rho)
    (txs : List Tx) (d : List (String × rho))
    (h : fetch_tx_receipts oracle txs = Except.ok d) :
    ∀ t ∈ txs, t.hash ∈ d.map Prod.fst := by
  rw [show fetch_tx_receipts oracle txs =
      (if ((fetchFold oracle txs []).length != txs.length) = true then
        Except.error ("fetch_tx_receipts did not receive all submitted receipts")
      else Except.ok (fetchFold oracle txs [])) from rfl] at h
  split at h
  · simp at h
  · rename_i hlen
    have hd : d = fetchFold oracle txs [] := by cases h; rfl
    have hlen2 : d.length = txs.length := by
      rw [hd]
      have := hlen
      simp only [bne_iff_ne, ne_eq, not_not] at this
      exact this
    have hnd : (d.map Prod.fst).Nodup := by
      rw [hd]
      exact fetchFold_keys_nodup oracle txs [] (by simp)
    have hsub : (d.map Prod.fst) ⊆ txs.map Tx.hash := by
      rw [hd]
      intro x hx
      have := fetchFold_keys_subset oracle txs [] hx
      simpa using this
    have hperm : (d.map Prod.fst).Perm (txs.map Tx.hash) := by
      refine (hnd.subperm hsub).perm_of_length_le ?_
      simp [hlen2]
    intro t ht
    exact hperm.mem_iff.mpr (List.mem_map_of_mem _ ht)

/-- C7: if the accumulated receipt dictionary misses any submitted transaction
(a failed fetch or a duplicated hash), fetch_tx_receipts raises, and the whole
block transaction of indexOneBlock fails with no committed state and no emitted
events; when it succeeds, the returned mapping has a key for every submitted
transaction hash. -/
theorem c7_receipts_all_or_nothing (rho : Type) (oracle : String → Option rho)
    (effects : String → BlockEffects) (db : DB) (b : ChainBlock) :
    ((∃ e, fetch_tx_receipts oracle b.transactions = Except.error e) →
        ∃ e2, indexOneBlock oracle effects db b = (Except.error e2, [])) ∧
    (∀ d, fetch_tx_receipts oracle b.transactions = Except.ok d →
        ∀ t ∈ b.transactions, t.hash ∈ d.map Prod.fst) := by
  constructor
  · intro hfail
    obtain ⟨e, he⟩ := hfail
    unfold indexOneBlock
    split
    · exact ⟨"Expected single row marked as current", rfl⟩
    · rw [he]
      exact ⟨e, rfl⟩
  · intro d hok
    exact fetch_tx_receipts_covers oracle b.transactions d hok

def c7oracleFail : String → Option Nat := fun _ => none

def c7oracleOk : String → Option Nat := fun _ => some 7

def c7tx : Tx := { hash := "t1" }

def c7block : ChainBlock := { hash := "bh", parentHash := "p", number := 5, transactions := [c7tx] }

def c7effects : String → BlockEffects := fun _ => effNone

/-- Witness for C7: a failing oracle aborts the block with an empty trace, and a
succeeding oracle yields a mapping whose keys cover the submitted transaction. -/
theorem c7_receipts_all_or_nothing_witness :
    (∃ e2, indexOneBlock c7oracleFail c7effects c3db0 c7block = (Except.error e2, [])) ∧
    c7tx.hash ∈ (([(("t1" : String), (7 : Nat))]).map Prod.fst) :=
  ⟨(c7_receipts_all_or_nothing Nat c7oracleFail c7effects c3db0 c7block).1
      ⟨"fetch_tx_receipts did not receive all submitted receipts", rfl⟩,
   (c7_receipts_all_or_nothing Nat c7oracleOk c7effects c3db0 c7block).2
      [(("t1" : String), (7 : Nat))] rfl c7tx (by decide)⟩

/-! ## C8: effects ordered strictly after commit -/

theorem mem_ite_list {alpha : Type} (x : alpha) (c : Prop) [Decidable c]
    (l1 l2 : List alpha) (h : x ∈ (if c then l1 else l2)) : x ∈ l1 ∨ x ∈ l2 := by
  split at h
  · exact Or.inl h
  · exact Or.inr h

theorem postCommitEvents_ne_commit (eff : BlockEffects) (b : ChainBlock) :
    ∀ ev ∈ postCommitEvents eff b, ev ≠ Event.commit := by
  intro ev hev
  unfold postCommitEvents at hev
  rcases List.mem_append.mp hev with h1 | h1
  · rcases List.mem_append.mp h1 with h2 | h2
    · rcases List.mem_append.mp h2 with h3 | h3
      · rcases mem_ite_list ev _ _ _ h3 with h4 | h4
        · rw [List.mem_singleton.mp h4]; intro hcontra; cases hcontra
        · cases h4
      · rcases mem_ite_list ev _ _ _ h3 with h4 | h4
        · rw [List.mem_singleton.mp h4]; intro hcontra; cases hcontra
        · cases h4
    · rcases mem_ite_list ev _ _ _ h2 with h4 | h4
      · rw [List.mem_singleton.mp h4]; intro hcontra; cases hcontra
      · cases h4
  · rcases List.mem_cons.mp h1 with h2 | h2
    · rw [h2]; intro hcontra; cases hcontra
    · rw [List.mem_singleton.mp h2]; intro hcontra; cases hcontra

/-- C8: for a single block, the event trace of indexOneBlock is empty whenever
the transaction fails (no cache invalidation, no publication), and on success it
begins with the commit, every following event being an invalidation or a
publication, never another commit: every externally visible side effect of the
block happens strictly after its transaction commits. -/
theorem c8_effects_after_commit (rho : Type) (oracle : String → Option rho)
    (effects : String → BlockEffects) (db : DB) (b : ChainBlock) :
    ((∃ e, (indexOneBlock oracle effects db b).1 = Except.error e) →
        (indexOneBlock oracle effects db b).2 = []) ∧
    (∀ db2, (indexOneBlock oracle effects db b).1 = Except.ok db2 →
        (indexOneBlock oracle effects db b).2 =
          Event.commit :: postCommitEvents (effects b.hash) b ∧
        ∀ ev ∈ postCommitEvents (effects b.hash) b, ev ≠ Event.commit) := by
  unfold indexOneBlock
  split
  · constructor
    · intro _; rfl
    · intro db2 h; simp at h
  · split
    · constructor
      · intro _; rfl
      · intro db2 h; simp at h
    · constructor
      · intro h
        obtain ⟨e, he⟩ := h
        simp at he
      · intro db2 _
        exact ⟨rfl, postCommitEvents_ne_commit _ _⟩

/-- Committed state of the concrete successful block of the C8 witness. -/
def c8db2 : DB := c2w_index_db2

/-- Witness for C8: the concrete successful block emits its commit first,
followed only by non-commit events. -/
theorem c8_effects_after_commit_witness :
    (indexOneBlock c3orc c3eff c3db0 c3cb1).2 =
      Event.commit :: postCommitEvents (c3eff c3cb1.hash) c3cb1 ∧
    ∀ ev ∈ postCommitEvents (c3eff c3cb1.hash) c3cb1, ev ≠ Event.commit :=
  (c8_effects_after_commit Unit c3orc c3eff c3db0 c3cb1).2 c8db2 rfl

/-! ## C9 and C10: aggregate-user checkpoint behaviour -/

theorem runAggregateQuery_checkpoints (lb : Int) (s : AggState) :
    (runAggregateQuery lb s).checkpoints = s.checkpoints := rfl

/-- C9: when the stored aggregate-user checkpoint is present (a truthy value c)
and equals the blocknumber of the current Block row, _update_aggregate_user
returns without running the recompute query and without saving a checkpoint:
the whole state, in particular aggregate_user and the checkpoint row, is
unchanged. -/
theorem c9_equal_checkpoint_noop (s : AggState) (c : Int)
    (h1 : getLastIndexedCheckpoint s AGGREGATE_USER = some c) (h2 : c ≠ 0)
    (h3 : getLatestBlocknumber s = some c) :
    update_aggregate_user s = s := by
  have hc : (c == 0) = false := by simpa using h2
  simp only [update_aggregate_user]
  rw [h1, h3]
  simp [truthyOptInt, hc]

def c9s : AggState :=
  { users := [], tracks := [], playlists := [], follows := [], reposts := [], saves := [],
    blocks := [{ blockhash := "h", number := some 100, parenthash := "g", is_current := true }],
    aggregate_user := [{ user_id := 1, track_count := 2, playlist_count := 3, album_count := 4,
                         follower_count := 5, following_count := 6, repost_count := 7,
                         track_save_count := 8 }],
    checkpoints := [("aggregate_user", 100)] }

/-- Witness for C9 at checkpoint 100 with latest current blocknumber 100. -/
theorem c9_equal_checkpoint_noop_witness : update_aggregate_user c9s = c9s :=
  c9_equal_checkpoint_noop c9s 100 rfl (by decide) rfl

theorem saveIndexedCheckpoint_no_zero (s : AggState) (n : Int) (hn : n ≠ 0)
    (h : (AGGREGATE_USER, (0 : Int)) ∈ (saveIndexedCheckpoint s AGGREGATE_USER n).checkpoints) :
    (AGGREGATE_USER, (0 : Int)) ∈ s.checkpoints := by
  unfold saveIndexedCheckpoint at h
  split at h
  · simp only at h
    rcases List.mem_map.mp h with ⟨q, hqmem, hqeq⟩
    by_cases hq1 : q.1 = AGGREGATE_USER
    · rw [if_pos (by simpa using hq1)] at hqeq
      have h2 := congrArg Prod.snd hqeq
      simp only at h2
      exact absurd h2 hn
    · rw [if_neg (by simpa using hq1)] at hqeq
      exact absurd (by rw [hqeq]) hq1
  · simp only at h
    rcases List.mem_append.mp h with h1 | h1
    · exact h1
    · have h2 := congrArg Prod.snd (List.mem_singleton.mp h1)
      simp only at h2
      exact absurd h2.symm hn

/-- C10: _update_aggregate_user treats a stored checkpoint of 0 exactly like an
absent checkpoint, truncating the whole aggregate_user table and recomputing
with lower bound 0 instead of updating incrementally; it saves no checkpoint
when the latest current blocknumber is 0 or NULL; and it never durably writes a
checkpoint value of 0 that was not already stored. -/
theorem c10_zero_checkpoint_like_absent (s : AggState) :
    ((getLastIndexedCheckpoint s AGGREGATE_USER = none ∨
        getLastIndexedCheckpoint s AGGREGATE_USER = some 0) →
      update_aggregate_user s =
        (match getLatestBlocknumber s with
         | some n =>
           if truthyOptInt (some n) then
             saveIndexedCheckpoint (runAggregateQuery 0 { s with aggregate_user := [] })
               AGGREGATE_USER n
           else runAggregateQuery 0 { s with aggregate_user := [] }
         | none => runAggregateQuery 0 { s with aggregate_user := [] })) ∧
    ((getLatestBlocknumber s = none ∨ getLatestBlocknumber s = some 0) →
      (update_aggregate_user s).checkpoints = s.checkpoints) ∧
    ((AGGREGATE_USER, (0 : Int)) ∈ (update_aggregate_user s).checkpoints →
      (AGGREGATE_USER, (0 : Int)) ∈ s.checkpoints) := by
  refine ⟨?_, ?_, ?_⟩
  · intro h
    rcases h with h | h <;> simp [update_aggregate_user, h, truthyOptInt]
  · intro h
    simp only [update_aggregate_user]
    by_cases hb : truthyOptInt (getLastIndexedCheckpoint s AGGREGATE_USER) = true
    · rw [if_neg (by simp [hb])]
      by_cases heq : (getLatestBlocknumber s == getLastIndexedCheckpoint s AGGREGATE_USER) = true
      · rw [if_pos heq]
      · rw [if_neg heq]
        rcases h with h | h <;> rw [h] <;> rfl
    · rw [if_pos (by simp [Bool.not_eq_true] at hb; simp [hb])]
      rcases h with h | h <;> rw [h] <;> rfl
  · simp only [update_aggregate_user]
    by_cases hb : truthyOptInt (getLastIndexedCheckpoint s AGGREGATE_USER) = true
    · rw [if_neg (by simp [hb])]
      by_cases heq : (getLatestBlocknumber s == getLastIndexedCheckpoint s AGGREGATE_USER) = true
      · rw [if_pos heq]
        exact id
      · rw [if_neg heq]
        cases hl : getLatestBlocknumber s with
        | none => exact id
        | some n =>
          dsimp only
          by_cases hn : truthyOptInt (some n) = true
          · rw [if_pos hn]
            intro hmem
            have hn2 : n ≠ 0 := by simpa [truthyOptInt] using hn
            exact saveIndexedCheckpoint_no_zero
              (runAggregateQuery ((getLastIndexedCheckpoint s AGGREGATE_USER).getD 0) s)
              n hn2 hmem
          · rw [if_neg hn]
            exact id
    · rw [if_pos (by simp [Bool.not_eq_true] at hb; simp [hb])]
      cases hl : getLatestBlocknumber s with
      | none => exact id
      | some n =>
        dsimp only
        by_cases hn : truthyOptInt (some n) = true
        · rw [if_pos hn]
          intro hmem
          have hn2 : n ≠ 0 := by simpa [truthyOptInt] using hn
          exact saveIndexedCheckpoint_no_zero
            (runAggregateQuery 0 { s with aggregate_user := [] }) n hn2 hmem
        · rw [if_neg hn]
          exact id

def c10s : AggState :=
  { users := [], tracks := [], playlists := [], follows := [], reposts := [], saves := [],
    blocks := [],
    aggregate_user := [{ user_id := 1, track_count := 2, playlist_count := 3, album_count := 4,
                         follower_count := 5, following_count := 6, repost_count := 7,
                         track_save_count := 8 }],
    checkpoints := [("aggregate_user", 0)] }

/-- Witness for C10 at a stored checkpoint of 0 with no current Block row. -/
theorem c10_zero_checkpoint_like_absent_witness :
    update_aggregate_user c10s = runAggregateQuery 0 { c10s with aggregate_user := [] } ∧
    (update_aggregate_user c10s).checkpoints = c10s.checkpoints ∧
    (AGGREGATE_USER, (0 : Int)) ∈ c10s.checkpoints :=
  ⟨(c10_zero_checkpoint_like_absent c10s).1 (Or.inr rfl),
   (c10_zero_checkpoint_like_absent c10s).2.1 (Or.inl rfl),
   (c10_zero_checkpoint_like_absent c10s).2.2 (by decide)⟩
